import Mathlib

/-!
# Verification of `extended_fizzbuzz`

A shallow embedding of the Rust crate `extended_fizzbuzz` (files
`src/matcher.rs` and `src/lib.rs`) together with proofs about its
specified behaviour.

Modelling conventions:
* Rust `usize` values are modelled as `Nat`; the one place where overflow
  can occur (`to + 1` in `fizzbuzz`) is modelled with an explicit
  `% usizeSize` reduction, for the release-profile wrapping semantics of a
  64-bit target (`usizeSize = 2 ^ 64`).  Debug builds would panic at that
  same spot instead of wrapping.
* `Result<T, E>` becomes `Except E T`; the unit result of `fizzbuzz` is
  paired with the list of strings it printed, one entry per `println!`
  call (each entry therefore ends in the line break the call appends).
* `number.to_string()` for `usize` is decimal, modelled by `Nat.repr`.
-/

set_option autoImplicit false

/-- `struct Matcher { number: usize, word: String }` from `src/matcher.rs`. -/
structure Matcher where
  number : Nat
  word : String
  deriving DecidableEq, Repr

/-- `enum MatcherError { NumberIsZero }` from `src/matcher.rs`. -/
inductive MatcherError where
  | NumberIsZero
  deriving DecidableEq, Repr

/-- `Matcher::new(number, word)` from `src/matcher.rs`: rejects a zero
divisor with `MatcherError::NumberIsZero`, otherwise stores the two
values. -/
def Matcher.new (number : Nat) (word : String) : Except MatcherError Matcher :=
  if number = 0 then
    Except.error MatcherError.NumberIsZero
  else
    Except.ok { number := number, word := word }

/-- `Matcher::matches(number)` from `src/matcher.rs`:
`number % self.number == 0`.  (In Rust, `%` panics when `self.number = 0`;
such a matcher is unconstructible through `Matcher::new`, and theorems
about `matches` carry the corresponding positivity hypothesis.) -/
def Matcher.matches (m : Matcher) (number : Nat) : Bool :=
  number % m.number == 0

/-- `Matcher::text(number)` from `src/matcher.rs`: the stored word when
the matcher matches, otherwise the empty string. -/
def Matcher.text (m : Matcher) (number : Nat) : String :=
  if m.matches number then m.word else ""

/-- `enum FizzBuzzError { FromBiggerThanTo { from: usize, to: usize } }`
from `src/lib.rs`.  The first field is `from`, the second is `to`. -/
inductive FizzBuzzError where
  | FromBiggerThanTo (lo hi : Nat)
  deriving DecidableEq, Repr

/-- `line(number, matchers)` from `src/lib.rs`: fold the matchers in
order, appending each `text(number)` to the output buffer; if the buffer
ends up empty, append the decimal representation of `number`. -/
def line (number : Nat) (matchers : List Matcher) : String :=
  let out := matchers.foldl (fun out m => out ++ m.text number) ""
  if out.isEmpty then out ++ Nat.repr number else out

/-- Size of the `usize` value space on a 64-bit target. -/
def usizeSize : Nat := 2 ^ 64

/-- `fizzbuzz(from, to, matchers)` from `src/lib.rs`.  Returns the lines
printed (each `println!` output, line break included) paired with the
`Result`.  The Rust loop is `for i in from..(to + 1)`, so the upper bound
is `to + 1` reduced modulo `usizeSize` (release-profile wrapping); the
loop body runs for each `i` with `lo ≤ i < upper`. -/
def fizzbuzz (lo hi : Nat) (matchers : List Matcher) :
    List String × Except FizzBuzzError Unit :=
  if lo > hi then
    ([], Except.error (FizzBuzzError.FromBiggerThanTo lo hi))
  else
    ((List.range' lo ((hi + 1) % usizeSize - lo)).map
        (fun i => line i matchers ++ "\n"),
      Except.ok ())

/-- The inclusive integer range `[lo, hi]` in ascending order, as the
spec describes it. -/
def inclusiveRange (lo hi : Nat) : List Nat :=
  List.range' lo (hi + 1 - lo)

/-- Modelled from the spec: `render_line` as §4.2 words it — the
concatenation, in list order, of the words of exactly those matchers
whose divisor evenly divides the number, falling back to the decimal
representation of the number when that accumulated text is empty. -/
def lineSpec (number : Nat) (matchers : List Matcher) : String :=
  let s := String.join
    ((matchers.filter (fun m => decide (m.number ∣ number))).map
      (fun m => m.word))
  if s.isEmpty then Nat.repr number else s

/-! ## Helper lemmas -/

/-- `String.join` distributes over `cons` as plain append. -/
theorem strJoin_cons (s : String) (l : List String) :
    String.join (s :: l) = s ++ String.join l := by
  apply String.ext
  simp [String.join_eq]

/-- The accumulator of the `line` fold factors out as a prefix. -/
theorem foldl_text_eq (number : Nat) (ms : List Matcher) (acc : String) :
    ms.foldl (fun out m => out ++ m.text number) acc
      = acc ++ String.join
          ((ms.filter (fun m => m.matches number)).map (fun m => m.word)) := by
  induction ms generalizing acc with
  | nil => simp [String.join]
  | cons m ms ih =>
    by_cases hm : m.matches number
    · simp only [List.foldl_cons, List.filter_cons, hm, if_pos trivial]
      rw [ih, Matcher.text, if_pos hm, List.map_cons, strJoin_cons,
        String.append_assoc]
    · simp only [List.foldl_cons]
      rw [ih, Matcher.text, if_neg hm, String.append_empty,
        List.filter_cons, if_neg (by simp [hm])]

/-- Boolean divisibility test agrees with the `%`-based test of
`Matcher::matches` for a nonzero divisor. -/
theorem matches_eq_dvd (m : Matcher) (number : Nat) :
    m.matches number = decide (m.number ∣ number) := by
  by_cases h : number % m.number = 0 <;>
    simp [Matcher.matches, Nat.dvd_iff_mod_eq_zero, h]

/-- A joined list of strings is empty iff every entry is empty. -/
theorem strJoin_isEmpty (l : List String) :
    (String.join l).isEmpty = l.all String.isEmpty := by
  induction l with
  | nil => rfl
  | cons s l ih =>
    rw [strJoin_cons, List.all_cons, ← ih]
    cases hs : (s ++ String.join l).isEmpty with
    | true =>
      have h := (String.isEmpty_iff _).1 hs
      have hdata := congrArg String.data h
      simp only [String.data_append] at hdata
      rcases List.append_eq_nil.1 hdata with ⟨h1, h2⟩
      rw [(String.isEmpty_iff s).2 (String.ext h1),
        (String.isEmpty_iff _).2 (String.ext h2)]
      rfl
    | false =>
      by_cases h1 : s.isEmpty = true
      · by_cases h2 : (String.join l).isEmpty = true
        · rw [(String.isEmpty_iff s).1 h1, (String.isEmpty_iff _).1 h2,
            String.append_empty, (String.isEmpty_iff "").2 rfl] at hs
          exact Bool.noConfusion hs
        · simp [h1, Bool.eq_false_iff.2 h2]
      · simp [Bool.eq_false_iff.2 h1]

/-! ## Claims -/

/-- C1: for every number and matcher list (of validly constructed
matchers, i.e. nonzero divisors), `line` returns the concatenation, in
list order, of the words of exactly those matchers whose divisor evenly
divides the number, falling back to the decimal representation of the
number when that accumulated text is empty. -/
theorem line_eq_lineSpec (number : Nat) (matchers : List Matcher)
    (hv : ∀ m ∈ matchers, m.number ≠ 0) :
    line number matchers = lineSpec number matchers := by
  have hf : matchers.filter (fun m => m.matches number)
      = matchers.filter (fun m => decide (m.number ∣ number)) :=
    List.filter_congr (fun m _ => matches_eq_dvd m number)
  simp only [line, lineSpec, foldl_text_eq, String.empty_append, hf]
  by_cases h : (String.join
      ((matchers.filter (fun m => decide (m.number ∣ number))).map
        (fun m => m.word))).isEmpty = true
  · rw [if_pos h, if_pos h, (String.isEmpty_iff _).1 h, String.empty_append]
  · rw [if_neg h, if_neg h]

/-- Witness for C1 at `number = 15` and the Fizz/Buzz matchers. -/
theorem line_eq_lineSpec_witness :
    line 15 [Matcher.mk 3 "Fizz", Matcher.mk 5 "Buzz"]
      = lineSpec 15 [Matcher.mk 3 "Fizz", Matcher.mk 5 "Buzz"] :=
  line_eq_lineSpec 15 [Matcher.mk 3 "Fizz", Matcher.mk 5 "Buzz"] (by decide)

/-- C2 (counterexample): at `lo = 1`, `hi = usize::MAX` the claim's
premise `lo ≤ hi` holds, yet `fizzbuzz` does not emit one line per
element of the inclusive range: `hi + 1` wraps to `0`, the loop range
`1..0` is empty, and nothing at all is emitted. -/
theorem fizzbuzz_usize_max_missing_lines :
    1 ≤ usizeSize - 1 ∧
      fizzbuzz 1 (usizeSize - 1) []
        ≠ ((inclusiveRange 1 (usizeSize - 1)).map (fun i => line i [] ++ "\n"),
            Except.ok ()) := by
  refine ⟨by norm_num [usizeSize], fun h => ?_⟩
  have h1 := congrArg (fun p => p.1.length) h
  have e : fizzbuzz 1 (usizeSize - 1) [] = (([] : List String), Except.ok ()) := rfl
  rw [e] at h1
  simp only [List.length_nil, List.length_map, inclusiveRange,
    List.length_range'] at h1
  norm_num [usizeSize] at h1

/-- C2 (amended): for all `lo ≤ hi` with `hi + 1` representable (no
`usize` overflow in `hi + 1`), `fizzbuzz` succeeds and emits exactly one
line per integer of the inclusive range `[lo, hi]`, in ascending order,
each line being `line i matchers` followed by a line break, and nothing
else. -/
theorem fizzbuzz_emits_range (lo hi : Nat) (matchers : List Matcher)
    (hle : lo ≤ hi) (hhi : hi + 1 < usizeSize) :
    fizzbuzz lo hi matchers
      = ((inclusiveRange lo hi).map (fun i => line i matchers ++ "\n"),
          Except.ok ()) := by
  rw [fizzbuzz, if_neg (Nat.not_lt.2 hle), Nat.mod_eq_of_lt hhi, inclusiveRange]

/-- Witness for the amended C2 on the range `[1, 3]`. -/
theorem fizzbuzz_emits_range_witness :
    fizzbuzz 1 3 [Matcher.mk 3 "Fizz"]
      = ((inclusiveRange 1 3).map (fun i => line i [Matcher.mk 3 "Fizz"] ++ "\n"),
          Except.ok ()) :=
  fizzbuzz_emits_range 1 3 [Matcher.mk 3 "Fizz"] (by decide)
    (by norm_num [usizeSize])

/-- C3: `fizzbuzz` fails with `FromBiggerThanTo` carrying `lo` and `hi`
(in that order, never swapped) exactly when `lo > hi`, and on that
failure it emits nothing. -/
theorem fizzbuzz_from_gt_to_iff (lo hi : Nat) (matchers : List Matcher) :
    ((fizzbuzz lo hi matchers).2
        = Except.error (FizzBuzzError.FromBiggerThanTo lo hi) ↔ hi < lo)
      ∧ (hi < lo → (fizzbuzz lo hi matchers).1 = []) := by
  by_cases h : hi < lo
  · simp [fizzbuzz, h]
  · simp [fizzbuzz, h]

/-- Witness for C3 at the inverted range `(10, 1)`. -/
theorem fizzbuzz_from_gt_to_iff_witness :
    (fizzbuzz 10 1 []).2 = Except.error (FizzBuzzError.FromBiggerThanTo 10 1)
      ∧ (fizzbuzz 10 1 []).1 = [] :=
  ⟨(fizzbuzz_from_gt_to_iff 10 1 []).1.2 (by decide),
    (fizzbuzz_from_gt_to_iff 10 1 []).2 (by decide)⟩

/-- C4 (failing input): at `lo = 0`, `hi = usize::MAX` validation passes
(`0 ≤ hi`), the result is `Ok`, yet zero lines are emitted although the
inclusive range `[0, usize::MAX]` has `usizeSize` elements: the code's
`hi + 1` overflows, so emission does not complete over the whole range
(in a debug build it panics at the same spot instead). -/
theorem fizzbuzz_at_usize_max :
    fizzbuzz 0 (usizeSize - 1) [] = ([], Except.ok ())
      ∧ (inclusiveRange 0 (usizeSize - 1)).length = usizeSize := by
  refine ⟨rfl, ?_⟩
  simp only [inclusiveRange, List.length_range', Nat.sub_zero]
  norm_num [usizeSize]

/-- C5: a matcher built by `Matcher::new` with divisor `d > 0` matches
`n` exactly when `n % d = 0`. -/
theorem matcher_matches_iff (d : Nat) (w : String) (m : Matcher) (n : Nat)
    (hnew : Matcher.new d w = Except.ok m) (hd : 0 < d) :
    (m.matches n = true ↔ n % d = 0) := by
  rw [Matcher.new, if_neg (Nat.pos_iff_ne_zero.1 hd)] at hnew
  injection hnew with hm
  subst hm
  simp [Matcher.matches]

/-- Witness for C5 with divisor 3 on the number 6. -/
theorem matcher_matches_iff_witness :
    ((Matcher.mk 3 "Fizz").matches 6 = true ↔ 6 % 3 = 0) :=
  matcher_matches_iff 3 "Fizz" (Matcher.mk 3 "Fizz") 6 rfl (by decide)

/-- C6: `Matcher::new` fails with `NumberIsZero` exactly when the divisor
is zero, and for every nonzero divisor succeeds with a matcher holding
that divisor and word (the error type has no other constructor, so there
is no other failure mode). -/
theorem matcher_new_spec (d : Nat) (w : String) :
    (Matcher.new d w = Except.error MatcherError.NumberIsZero ↔ d = 0)
      ∧ (d ≠ 0 → Matcher.new d w = Except.ok (Matcher.mk d w)) := by
  by_cases h : d = 0
  · subst h; simp [Matcher.new]
  · simp [Matcher.new, h]

/-- Witness for C6 at divisors 0 and 5. -/
theorem matcher_new_spec_witness :
    Matcher.new 0 "Fizz" = Except.error MatcherError.NumberIsZero
      ∧ Matcher.new 5 "Buzz" = Except.ok (Matcher.mk 5 "Buzz") :=
  ⟨(matcher_new_spec 0 "Fizz").1.2 rfl, (matcher_new_spec 5 "Buzz").2 (by decide)⟩

/-- C7: `text` returns the configured word when the matcher matches and
the empty string otherwise (and, being a total function, never fails). -/
theorem matcher_text_spec (m : Matcher) (n : Nat) :
    (m.matches n = true → m.text n = m.word)
      ∧ (m.matches n = false → m.text n = "") := by
  constructor <;> intro h <;> simp [Matcher.text, h]

/-- Witness for C7 with divisor 3 on the numbers 6 and 7. -/
theorem matcher_text_spec_witness :
    (Matcher.mk 3 "Fizz").text 6 = "Fizz" ∧ (Matcher.mk 3 "Fizz").text 7 = "" :=
  ⟨(matcher_text_spec (Matcher.mk 3 "Fizz") 6).1 (by decide),
    (matcher_text_spec (Matcher.mk 3 "Fizz") 7).2 (by decide)⟩

/-- C8: with an empty matcher list, `line` returns the decimal string
representation of the number, for every number. -/
theorem line_nil_eq_repr (n : Nat) : line n [] = Nat.repr n := by
  have he : ("" : String).isEmpty = true := rfl
  simp [line, he, String.empty_append]

/-- C9: the concatenation order follows the matcher list order: the
Fizz-before-Buzz list renders 15 as "FizzBuzz" and the reversed list
renders it as "BuzzFizz". -/
theorem line_order_follows_list :
    line 15 [Matcher.mk 3 "Fizz", Matcher.mk 5 "Buzz"] = "FizzBuzz"
      ∧ line 15 [Matcher.mk 5 "Buzz", Matcher.mk 3 "Fizz"] = "BuzzFizz" :=
  ⟨by decide, by decide⟩

/-- C10: every validly constructed matcher matches 0, so on a non-empty
matcher list with at least one non-empty word, `line 0` returns the
concatenation of every matcher's word in list order; the decimal fallback
"0" is taken exactly when every configured word is empty (which includes
the empty matcher list). -/
theorem line_zero_concat_all (matchers : List Matcher)
    (hv : ∀ m ∈ matchers, m.number ≠ 0) :
    (matchers.all (fun m => m.word.isEmpty) = false →
        line 0 matchers = String.join (matchers.map (fun m => m.word)))
      ∧ (matchers.all (fun m => m.word.isEmpty) = true →
        line 0 matchers = Nat.repr 0) := by
  have hall : matchers.filter (fun m => m.matches 0) = matchers :=
    List.filter_eq_self.2 (fun m _ => by simp [Matcher.matches])
  have hjoin : (String.join (matchers.map (fun m => m.word))).isEmpty
      = matchers.all (fun m => m.word.isEmpty) := by
    rw [strJoin_isEmpty]
    clear hall hv
    induction matchers with
    | nil => rfl
    | cons m ms ih => simp [ih]
  have hout : matchers.foldl (fun out m => out ++ m.text 0) ""
      = String.join (matchers.map (fun m => m.word)) := by
    rw [foldl_text_eq, hall, String.empty_append]
  constructor
  · intro h
    simp only [line, hout, hjoin, h]
    simp
  · intro h
    have hjnil : String.join (matchers.map (fun m => m.word)) = "" :=
      (String.isEmpty_iff _).1 (by rw [hjoin, h])
    simp only [line, hout, hjnil]
    rw [if_pos (by rfl), String.empty_append]

/-- Witness for C10 on the Fizz/Buzz matchers at 0. -/
theorem line_zero_concat_all_witness :
    line 0 [Matcher.mk 3 "Fizz", Matcher.mk 5 "Buzz"]
      = String.join
          ([Matcher.mk 3 "Fizz", Matcher.mk 5 "Buzz"].map (fun m => m.word)) :=
  (line_zero_concat_all [Matcher.mk 3 "Fizz", Matcher.mk 5 "Buzz"]
    (by decide)).1 (by decide)
